import Mathlib

/-!
# AzureDefenderVulnerabilities: aggregation, response parsing and pagination

A shallow embedding of `cmd/main.go`:

* `createRecommendation` (lines 220-267): filter, group by `NameID`, overlay
  metadata, convert the map back to a slice;
* `parseAIResponse` (lines 368-421): the fixed-marker section parser;
* `makeRequest` (lines 80-128): the `nextLink`-following fetch loop.
* `aiEnrich` (lines 308-315): what one enrichment task does with the completion text
  before it sends its record.

Modelling conventions.

* A Go `string` is a Lean `String`.  The parser only receives text decoded from
  JSON, which is valid UTF-8, and its three markers are ASCII, so positions are
  counted in characters; the order of two positions is the same in bytes and in
  characters.
* A Go `map[string]*Recommendation` is an association list in insertion order.
  Writing through the stored pointer is `RecMap.update`; the assignment
  `m[k] = &v` is `RecMap.set`.  Ranging over a Go map visits the entries in an
  order the language leaves open, so the range loop takes the order as a
  parameter (`MapOrder`), any rearrangement of the entries.
* A run-time panic (slice bounds out of range) is the value `none`.
* The HTTP round trip of `makeRequest` (build request, `client.Do`, read body,
  `json.Unmarshal`) is one call of a server transition function on an explicit
  world state; the loop carries fuel because the Go loop may run forever.
-/

namespace AzureDefender

/-! ## Data model (lines 24-54) -/

structure ResourceDetails where
  ResourceName : String
  ResourceID : String
deriving DecidableEq, Repr

structure Status where
  Code : String
deriving DecidableEq, Repr

structure AssessmentProperties where
  ResourceDetails : ResourceDetails
  DisplayName : String
  Status : Status
deriving DecidableEq, Repr

structure DefenderAssessment where
  NameID : String
  Properties : AssessmentProperties
deriving DecidableEq, Repr

structure MetadataProperties where
  DisplayName : String
  Description : String
  Remediation : String
  Severity : String
deriving DecidableEq, Repr

structure AssessmentMetadata where
  NameID : String
  Properties : MetadataProperties
deriving DecidableEq, Repr

structure Recommendation where
  NameID : String
  DisplayName : String
  Description : String
  Severity : String
  AffectedResources : List String
  Remediation : String
  Context : String
deriving DecidableEq, Repr

/-! ## The map `existingRecommendations` -/

/-- The Go map `map[string]*Recommendation`, as an association list in insertion order. -/
abbrev RecMap := List (String × Recommendation)

/-- The lookup `v, found := m[k]`: `none` stands for `found == false`. -/
def RecMap.find : RecMap → String → Option Recommendation
  | [], _ => none
  | (k', v) :: rest, k => if k' = k then some v else RecMap.find rest k

/-- A write through the pointer stored under key `k`. -/
def RecMap.update : RecMap → String → (Recommendation → Recommendation) → RecMap
  | [], _, _ => []
  | (k', v) :: rest, k, f =>
    if k' = k then (k', f v) :: rest else (k', v) :: RecMap.update rest k f

/-- The assignment `m[k] = &v`: replaces the entry of `k`, or adds one. -/
def RecMap.set : RecMap → String → Recommendation → RecMap
  | [], k, v => [(k, v)]
  | (k', v') :: rest, k, v =>
    if k' = k then (k, v) :: rest else (k', v') :: RecMap.set rest k v

/-- The keys of the map, in insertion order. -/
def RecMap.keys (m : RecMap) : List String := m.map Prod.fst

/-- An iteration order of `for _, r := range m`: some rearrangement of the entries. -/
structure MapOrder where
  range : RecMap → RecMap
  perm : ∀ m, (range m).Perm m

/-- Iteration in insertion order. -/
def MapOrder.insertion : MapOrder := ⟨fun m => m, fun m => List.Perm.refl m⟩

/-- Iteration in reverse insertion order. -/
def MapOrder.reversed : MapOrder := ⟨fun m => m.reverse, fun m => List.reverse_perm m⟩

/-! ## `createRecommendation` (lines 220-267) -/

/-- The test of line 227. -/
def isUnhealthy (assessment : DefenderAssessment) : Bool :=
  decide (assessment.Properties.Status.Code = "Unhealthy")

/-- The first loop, lines 225-230: keep the assessments whose status code is "Unhealthy". -/
def filterAssessments (assessments : List DefenderAssessment) : List DefenderAssessment :=
  assessments.filter isUnhealthy

/-- The record built at lines 240-248. -/
def newRecommendation (filteredAssessment : DefenderAssessment) : Recommendation :=
  { NameID := filteredAssessment.NameID
    DisplayName := filteredAssessment.Properties.DisplayName
    Description := "Unknown"
    Severity := "Unknown"
    AffectedResources := [filteredAssessment.Properties.ResourceDetails.ResourceName]
    Remediation := "Unknown"
    Context := "Unknown" }

/-- One iteration of the second loop, lines 233-252. -/
def groupStep (existingRecommendations : RecMap) (filteredAssessment : DefenderAssessment) :
    RecMap :=
  match existingRecommendations.find filteredAssessment.NameID with
  | some _ =>
    existingRecommendations.update filteredAssessment.NameID fun recommendation =>
      { recommendation with
        AffectedResources := recommendation.AffectedResources ++
          [filteredAssessment.Properties.ResourceDetails.ResourceName] }
  | none =>
    existingRecommendations.set filteredAssessment.NameID (newRecommendation filteredAssessment)

/-- One iteration of the third loop, lines 253-259. -/
def overlayStep (existingRecommendations : RecMap) (metadata : AssessmentMetadata) : RecMap :=
  match existingRecommendations.find metadata.NameID with
  | some _ =>
    existingRecommendations.update metadata.NameID fun recommendationid =>
      { recommendationid with
        Description := metadata.Properties.Description
        Severity := metadata.Properties.Severity
        Remediation := metadata.Properties.Remediation }
  | none => existingRecommendations

/-- The map `existingRecommendations` when the loop of line 262 starts. -/
def recommendationMap (assessments : List DefenderAssessment)
    (metadatas : List AssessmentMetadata) : RecMap :=
  metadatas.foldl overlayStep ((filterAssessments assessments).foldl groupStep [])

/-- The function `createRecommendation`; `ord` is the order in which line 262 ranges
over the map. -/
def createRecommendation (ord : MapOrder) (assessments : List DefenderAssessment)
    (metadatas : List AssessmentMetadata) : List Recommendation :=
  (ord.range (recommendationMap assessments metadatas)).map Prod.snd

/-! ### Definitions used to state and prove the claims on `createRecommendation` -/

/-- The test "this metadata entry has the NameID of some Unhealthy finding". -/
def matchesUnhealthy (assessments : List DefenderAssessment) (md : AssessmentMetadata) : Bool :=
  assessments.any fun a =>
    decide (a.Properties.Status.Code = "Unhealthy") && decide (a.NameID = md.NameID)

/-- A finding of the end-to-end scenario: NameID, status code, resource name, display name. -/
def scenarioFinding (id status resource displayName : String) : DefenderAssessment :=
  ⟨id, ⟨⟨resource, ""⟩, displayName, ⟨status⟩⟩⟩

/-- Sample findings: two Unhealthy findings of CVE1, one of CVE2, a Healthy one of CVE3 and
one of CVE1 whose status is written in lower case. -/
def sampleFindings : List DefenderAssessment :=
  [scenarioFinding "CVE1" "Unhealthy" "vm1" "first", scenarioFinding "CVE3" "Healthy" "vm4" "third",
    scenarioFinding "CVE1" "unhealthy" "vm5" "lower", scenarioFinding "CVE2" "Unhealthy" "vm3" "second",
    scenarioFinding "CVE1" "Unhealthy" "vm2" "again"]

/-- Sample metadata: two entries for CVE1, none for CVE2, and entries for ids that no
Unhealthy finding has. -/
def sampleMetadata : List AssessmentMetadata :=
  [⟨"CVE9", ⟨"n9", "d9", "r9", "Low"⟩⟩, ⟨"CVE1", ⟨"n1", "d0", "r0", "Low"⟩⟩,
    ⟨"CVE3", ⟨"n3", "d3", "r3", "Medium"⟩⟩, ⟨"CVE1", ⟨"n1", "d1", "r1", "High"⟩⟩]

/-- The record that the sample inputs give for CVE1. -/
def sampleRecord : Recommendation :=
  ⟨"CVE1", "first", "d1", "High", ["vm1", "vm2"], "r1", "Unknown"⟩

/-- The record that the grouping pass holds under key `k` after the findings `fs`. -/
def groupedRecord (fs : List DefenderAssessment) (k : String) : Option Recommendation :=
  (fs.find? fun a => decide (a.NameID = k)).map fun a =>
    { NameID := a.NameID
      DisplayName := a.Properties.DisplayName
      Description := "Unknown"
      Severity := "Unknown"
      AffectedResources :=
        (fs.filter fun b => decide (b.NameID = k)).map
          fun b => b.Properties.ResourceDetails.ResourceName
      Remediation := "Unknown"
      Context := "Unknown" }

/-- The effect of the overlay pass over `ms` on the record stored under key `k`. -/
def overlayRecord (ms : List AssessmentMetadata) (k : String) (r : Recommendation) :
    Recommendation :=
  match (ms.filter fun md => decide (md.NameID = k)).getLast? with
  | some md =>
    { r with
      Description := md.Properties.Description
      Severity := md.Properties.Severity
      Remediation := md.Properties.Remediation }
  | none => r

/-! ## `parseAIResponse` (lines 368-421) -/

/-- The Go predicate `unicode.IsSpace`: the code points with the White_Space property. -/
def unicode.IsSpace (r : Char) : Bool :=
  r.toNat = 0x09 || r.toNat = 0x0A || r.toNat = 0x0B || r.toNat = 0x0C || r.toNat = 0x0D ||
  r.toNat = 0x20 || r.toNat = 0x85 || r.toNat = 0xA0 || r.toNat = 0x1680 ||
  (0x2000 ≤ r.toNat && r.toNat ≤ 0x200A) || r.toNat = 0x2028 || r.toNat = 0x2029 ||
  r.toNat = 0x202F || r.toNat = 0x205F || r.toNat = 0x3000

/-- The Go function `strings.TrimSpace`: drop the leading and the trailing white space. -/
def strings.TrimSpace (s : String) : String :=
  ⟨((s.data.dropWhile unicode.IsSpace).reverse.dropWhile unicode.IsSpace).reverse⟩

/-- Position of the first occurrence of `substr` in a text, if there is one. -/
def indexFrom (substr : List Char) : List Char → Option Nat
  | [] => if substr.isEmpty then some 0 else none
  | c :: rest =>
    if substr.isPrefixOf (c :: rest) then some 0 else (indexFrom substr rest).map (· + 1)

/-- The Go function `strings.Index`: the position of the first occurrence, or `-1`. -/
def strings.Index (s substr : String) : Int :=
  match indexFrom substr.data s.data with
  | some i => (i : Int)
  | none => -1

/-- The Go slice expression `s[lo:hi]`; `none` is the panic "slice bounds out of range". -/
def slice (s : String) (lo hi : Int) : Option String :=
  if 0 ≤ lo ∧ lo ≤ hi ∧ hi ≤ (s.length : Int) then
    some ⟨(s.data.drop lo.toNat).take (hi.toNat - lo.toNat)⟩
  else none

/-- The Go slice expression `s[lo:]`. -/
def sliceFrom (s : String) (lo : Int) : Option String :=
  slice s lo (s.length : Int)

/-- Line 370. -/
def explanationMarker : String := "**Explanation of the Vulnerability:**"

/-- Line 371. -/
def remediationMarker : String := "**Remediation Steps:**"

/-- Line 372. -/
def contextMarker : String := "**Context about the Impact of the Vulnerability:**"

/-- The function `parseAIResponse`.  The three sections are computed in source order; the
first slice expression that panics makes the whole call panic (`none`). -/
def parseAIResponse (response : String) : Option (String × String × String) :=
  let explanationStart := strings.Index response explanationMarker
  let remediationStart := strings.Index response remediationMarker
  let contextStart := strings.Index response contextMarker
  let explanation : Option String :=
    if explanationStart ≠ -1 then
      if remediationStart ≠ -1 then
        (slice response (explanationStart + explanationMarker.length) remediationStart).map
          strings.TrimSpace
      else if contextStart ≠ -1 then
        (slice response (explanationStart + explanationMarker.length) contextStart).map
          strings.TrimSpace
      else
        (sliceFrom response (explanationStart + explanationMarker.length)).map strings.TrimSpace
    else some ""
  let remediation : Option String :=
    if remediationStart ≠ -1 then
      if contextStart ≠ -1 then
        (slice response (remediationStart + remediationMarker.length) contextStart).map
          strings.TrimSpace
      else
        (sliceFrom response (remediationStart + remediationMarker.length)).map strings.TrimSpace
    else some ""
  let context : Option String :=
    if contextStart ≠ -1 then
      (sliceFrom response (contextStart + contextMarker.length)).map strings.TrimSpace
    else some ""
  explanation.bind fun e => remediation.bind fun r => context.bind fun c => some (e, r, c)

/-! ### The section rule in the words of the specification -/

/-- First occurrence of a marker in a text, `none` when the marker is absent. -/
def firstOccurrence (text marker : String) : Option Nat :=
  indexFrom marker.data text.data

/-- The characters of `text` from position `lo` up to, not including, position `hi`. -/
def substring (text : String) (lo hi : Nat) : String :=
  ⟨(text.data.drop lo).take (hi - lo)⟩

/-- The section of `marker` as the specification words it: empty when the marker is absent;
otherwise the trimmed text from immediately after the marker's first occurrence up to the
first occurrence of the next marker, in canonical order, that is present, or up to the end
of the text when none of the later markers is present. -/
def specSection (text marker : String) (laterMarkers : List String) : String :=
  match firstOccurrence text marker with
  | none => ""
  | some start =>
    match (laterMarkers.filterMap (firstOccurrence text)).head? with
    | some stop => strings.TrimSpace (substring text (start + marker.length) stop)
    | none => strings.TrimSpace (substring text (start + marker.length) text.length)

/-! ## `aiEnrich` (lines 269-316), after the completion call -/

/-- Lines 308-315 of `aiEnrich`, run by one task once its completion call has returned the
text `response` with `err == nil`: parse the response (line 310), overwrite Description,
Remediation and Context through the pointer (lines 311-313) and send the record on the
channel (line 315).  The value is the record that the task sends; `none` means that
`parseAIResponse` panics at line 310, so that the send of line 315 is never reached (the
function has no `recover`). -/
def aiEnrichAfterCall (recommendation : Recommendation) (response : String) :
    Option Recommendation :=
  match parseAIResponse response with
  | some (explanation, remediation, context) =>
    some { recommendation with
      Description := explanation
      Remediation := remediation
      Context := context }
  | none => none

/-! ## `makeRequest` (lines 80-128) -/

/-- The decoded response envelope of lines 109-112. -/
structure Page (T : Type) where
  Value : List T
  NextLink : String

/-- One round trip of lines 86-118 against the outside world: from a world state, the URL
and the bearer token, either an error (request, transport, read or decode) or the decoded
page, and the next world state. -/
abbrev Server (W T : Type) := W → String → String → Except String (Page T) × W

/-- What a call of `makeRequest` leaves behind: the returned pair (`Except.error` is
`nil, err`), the URLs requested in order, and the world state. -/
structure Outcome (W T : Type) where
  result : Except String (List T)
  requests : List String
  world : W

/-- The loop of lines 84-125 with `fuel` bounding the number of iterations; `none` means
that the fuel did not suffice. -/
def makeRequestLoop {W T : Type} (server : Server W T) (token : String) :
    Nat → W → String → List T → List String → Option (Outcome W T)
  | 0, w, url, allResults, requests =>
    if url = "" then some ⟨Except.ok allResults, requests, w⟩ else none
  | fuel + 1, w, url, allResults, requests =>
    if url = "" then some ⟨Except.ok allResults, requests, w⟩
    else
      match server w url token with
      | (Except.error err, w') => some ⟨Except.error err, requests ++ [url], w'⟩
      | (Except.ok response, w') =>
        makeRequestLoop server token fuel w' response.NextLink (allResults ++ response.Value)
          (requests ++ [url])

/-- The function `makeRequest`. -/
def makeRequest {W T : Type} (server : Server W T) (fuel : Nat) (w : W) (apiUrl token : String) :
    Option (Outcome W T) :=
  makeRequestLoop server token fuel w apiUrl [] []

/-- The pages `p1..pn` (`n ≥ 1`) are served from world state `w` starting at `url`: the GET
of `url` succeeds with `p1`, the `nextLink` of every page but the last is non-empty and its
GET succeeds with the next page, and the `nextLink` of the last page is empty. -/
def Serves {W T : Type} (server : Server W T) (token : String) :
    W → String → List (Page T) → Prop
  | _, _, [] => False
  | w, url, [p] => (server w url token).1 = Except.ok p ∧ p.NextLink = ""
  | w, url, p :: q :: rest =>
    (server w url token).1 = Except.ok p ∧ p.NextLink ≠ "" ∧
      Serves server token (server w url token).2 p.NextLink (q :: rest)

/-- A sample server: `u1` returns the items 1, 2 and the link `u2`; `u2` returns the item 3
and no link; any other URL fails.  The world state counts the requests received. -/
def sampleServer : Server Nat Nat := fun w url _ =>
  if url = "u1" then (Except.ok ⟨[1, 2], "u2"⟩, w + 1)
  else if url = "u2" then (Except.ok ⟨[3], ""⟩, w + 1)
  else (Except.error "not found", w + 1)

/-! ## Lemmas on the map -/

theorem RecMap.find_update (m : RecMap) (k : String) (f : Recommendation → Recommendation)
    (k' : String) :
    (m.update k f).find k' = if k = k' then (m.find k').map f else m.find k' := by
  induction m with
  | nil => simp [RecMap.update, RecMap.find]
  | cons p rest ih =>
    obtain ⟨k0, v0⟩ := p
    by_cases h0 : k0 = k
    · by_cases h1 : k = k'
      · simp [RecMap.update, RecMap.find, h0, h1]
      · simp [RecMap.update, RecMap.find, h0, h1]
    · by_cases h1 : k0 = k'
      · subst h1
        have h2 : ¬ k = k0 := fun h => h0 h.symm
        simp [RecMap.update, RecMap.find, h0, h2]
      · simp [RecMap.update, RecMap.find, h0, h1, ih]

theorem RecMap.find_set (m : RecMap) (k : String) (v : Recommendation) (k' : String) :
    (m.set k v).find k' = if k = k' then some v else m.find k' := by
  induction m with
  | nil => simp [RecMap.set, RecMap.find]
  | cons p rest ih =>
    obtain ⟨k0, v0⟩ := p
    by_cases h0 : k0 = k
    · by_cases h1 : k = k'
      · simp [RecMap.set, RecMap.find, h0, h1]
      · simp [RecMap.set, RecMap.find, h0, h1]
    · by_cases h1 : k0 = k'
      · subst h1
        have h2 : ¬ k = k0 := fun h => h0 h.symm
        simp [RecMap.set, RecMap.find, h0, h2]
      · simp [RecMap.set, RecMap.find, h0, h1, ih]

theorem RecMap.keys_update (m : RecMap) (k : String) (f : Recommendation → Recommendation) :
    (m.update k f).keys = m.keys := by
  induction m with
  | nil => rfl
  | cons p rest ih =>
    obtain ⟨k0, v0⟩ := p
    by_cases h0 : k0 = k
    · simp [RecMap.update, RecMap.keys, h0]
    · simpa [RecMap.update, RecMap.keys, h0] using ih

theorem RecMap.find_eq_none_iff (m : RecMap) (k : String) :
    m.find k = none ↔ k ∉ m.keys := by
  induction m with
  | nil => simp [RecMap.find, RecMap.keys]
  | cons p rest ih =>
    obtain ⟨k0, v0⟩ := p
    by_cases h0 : k0 = k
    · simp [RecMap.find, RecMap.keys, h0]
    · have h1 : ¬ k = k0 := fun h => h0 h.symm
      simpa [RecMap.find, RecMap.keys, h0, h1] using ih

theorem RecMap.keys_set_of_find_none (m : RecMap) (k : String) (v : Recommendation)
    (h : m.find k = none) : (m.set k v).keys = m.keys ++ [k] := by
  induction m with
  | nil => rfl
  | cons p rest ih =>
    obtain ⟨k0, v0⟩ := p
    by_cases h0 : k0 = k
    · simp [RecMap.find, h0] at h
    · have h2 : RecMap.find rest k = none := by simpa [RecMap.find, h0] using h
      simpa [RecMap.set, RecMap.keys, h0] using ih h2

theorem RecMap.mem_iff_find (m : RecMap) (hm : m.keys.Nodup) (k : String)
    (v : Recommendation) : (k, v) ∈ m ↔ m.find k = some v := by
  induction m with
  | nil => simp [RecMap.find]
  | cons p rest ih =>
    obtain ⟨k0, v0⟩ := p
    have hk : k0 ∉ RecMap.keys rest ∧ (RecMap.keys rest).Nodup := by
      simpa [RecMap.keys] using hm
    by_cases h0 : k0 = k
    · subst h0
      have hnot : ∀ w, (k0, w) ∉ rest := by
        intro w hw
        exact hk.1 (List.mem_map_of_mem Prod.fst hw)
      simp [RecMap.find, hnot, eq_comm]
    · have h1 : ¬ k = k0 := fun h => h0 h.symm
      simpa [RecMap.find, h0, h1] using ih hk.2

/-! ## Lemmas on the two passes of `createRecommendation` -/

theorem groupStep_find (m : RecMap) (a : DefenderAssessment) (k : String) :
    (groupStep m a).find k =
      if a.NameID = k then
        (match m.find k with
          | some r =>
            some { r with
              AffectedResources := r.AffectedResources ++
                [a.Properties.ResourceDetails.ResourceName] }
          | none => some (newRecommendation a))
      else m.find k := by
  unfold groupStep
  cases h : m.find a.NameID with
  | none =>
    simp only [RecMap.find_set]
    by_cases hk : a.NameID = k
    · subst hk
      simp [h]
    · simp [hk]
  | some r =>
    simp only [RecMap.find_update]
    by_cases hk : a.NameID = k
    · subst hk
      simp [h]
    · simp [hk]

theorem groupStep_keys_nodup (m : RecMap) (a : DefenderAssessment) (hm : m.keys.Nodup) :
    (groupStep m a).keys.Nodup := by
  unfold groupStep
  cases h : m.find a.NameID with
  | none =>
    simp only []
    rw [RecMap.keys_set_of_find_none m _ _ h]
    have hnot : a.NameID ∉ m.keys := (RecMap.find_eq_none_iff m _).1 h
    exact List.Nodup.append hm (List.nodup_singleton _) (by simpa using hnot)
  | some r =>
    simp only []
    rw [RecMap.keys_update]
    exact hm

theorem group_keys_nodup (fs : List DefenderAssessment) (m : RecMap) (hm : m.keys.Nodup) :
    (fs.foldl groupStep m).keys.Nodup := by
  induction fs generalizing m with
  | nil => exact hm
  | cons a rest ih => exact ih _ (groupStep_keys_nodup m a hm)

theorem group_find (fs : List DefenderAssessment) (k : String) :
    (fs.foldl groupStep []).find k = groupedRecord fs k := by
  induction fs using List.reverseRecOn with
  | nil => simp [groupedRecord, RecMap.find]
  | append_singleton pre a ih =>
    rw [List.foldl_append]
    simp only [List.foldl_cons, List.foldl_nil]
    rw [groupStep_find, ih]
    by_cases hk : a.NameID = k
    · cases hf : pre.find? (fun a => decide (a.NameID = k)) with
      | none =>
        have hnone : ∀ b ∈ pre, ¬ b.NameID = k := by simpa using hf
        simpa [groupedRecord, hk, hf, List.find?_append, newRecommendation] using hnone
      | some b => simp [groupedRecord, hk, hf, List.find?_append]
    · simp [groupedRecord, hk, List.find?_append]

theorem overlayStep_find (m : RecMap) (md : AssessmentMetadata) (k : String) :
    (overlayStep m md).find k =
      if md.NameID = k then
        (m.find k).map fun r =>
          { r with
            Description := md.Properties.Description
            Severity := md.Properties.Severity
            Remediation := md.Properties.Remediation }
      else m.find k := by
  unfold overlayStep
  cases h : m.find md.NameID with
  | none =>
    by_cases hk : md.NameID = k
    · subst hk
      simp [h]
    · simp [hk]
  | some r => simp only [RecMap.find_update]

theorem overlayStep_keys (m : RecMap) (md : AssessmentMetadata) :
    (overlayStep m md).keys = m.keys := by
  unfold overlayStep
  cases h : m.find md.NameID with
  | none => rfl
  | some r => exact RecMap.keys_update _ _ _

theorem overlay_keys (ms : List AssessmentMetadata) (m : RecMap) :
    (ms.foldl overlayStep m).keys = m.keys := by
  induction ms generalizing m with
  | nil => rfl
  | cons md rest ih => rw [List.foldl_cons, ih, overlayStep_keys]

theorem overlay_find (ms : List AssessmentMetadata) (m : RecMap) (k : String) :
    (ms.foldl overlayStep m).find k = (m.find k).map (overlayRecord ms k) := by
  induction ms using List.reverseRecOn with
  | nil =>
    simp only [List.foldl_nil]
    generalize m.find k = o
    cases o <;> simp [overlayRecord]
  | append_singleton pre md ih =>
    rw [List.foldl_append]
    simp only [List.foldl_cons, List.foldl_nil]
    rw [overlayStep_find, ih]
    generalize m.find k = o
    by_cases hk : md.NameID = k
    · cases o with
      | none => simp [hk]
      | some r =>
        simp only [hk, if_true, Option.map_some']
        simp [overlayRecord, hk, List.filter_append, List.getLast?_append]
        generalize List.find? (fun md => decide (md.NameID = k)) pre.reverse = x
        cases x <;> simp
    · cases o <;>
        simp [overlayRecord, hk, List.filter_append]

/-! ## What `createRecommendation` returns -/

theorem recommendationMap_keys_nodup (assessments : List DefenderAssessment)
    (metadatas : List AssessmentMetadata) :
    (recommendationMap assessments metadatas).keys.Nodup := by
  unfold recommendationMap
  rw [overlay_keys]
  exact group_keys_nodup _ [] List.nodup_nil

theorem recommendationMap_find (assessments : List DefenderAssessment)
    (metadatas : List AssessmentMetadata) (k : String) :
    (recommendationMap assessments metadatas).find k =
      (groupedRecord (filterAssessments assessments) k).map (overlayRecord metadatas k) := by
  unfold recommendationMap
  rw [overlay_find, group_find]

theorem overlayRecord_NameID (ms : List AssessmentMetadata) (k : String) (r : Recommendation) :
    (overlayRecord ms k r).NameID = r.NameID := by
  unfold overlayRecord
  split <;> rfl

theorem recommendationMap_find_NameID {assessments : List DefenderAssessment}
    {metadatas : List AssessmentMetadata} {k : String} {r : Recommendation}
    (h : (recommendationMap assessments metadatas).find k = some r) : r.NameID = k := by
  rw [recommendationMap_find] at h
  unfold groupedRecord at h
  cases hf : (filterAssessments assessments).find? (fun a => decide (a.NameID = k)) with
  | none => simp [hf] at h
  | some a =>
    have ha : a.NameID = k := by simpa using List.find?_some hf
    simp only [hf, Option.map_some', Option.some.injEq] at h
    rw [← h, overlayRecord_NameID]
    exact ha

theorem mem_createRecommendation (ord : MapOrder) (assessments : List DefenderAssessment)
    (metadatas : List AssessmentMetadata) (r : Recommendation) :
    r ∈ createRecommendation ord assessments metadatas ↔
      (recommendationMap assessments metadatas).find r.NameID = some r := by
  unfold createRecommendation
  have hnd := recommendationMap_keys_nodup assessments metadatas
  constructor
  · intro h
    obtain ⟨p, hp, hpr⟩ := List.mem_map.1 h
    obtain ⟨k, v⟩ := p
    have hv : v = r := hpr
    subst hv
    have hmem := (ord.perm _).mem_iff.1 hp
    have hfind := (RecMap.mem_iff_find _ hnd k v).1 hmem
    rw [recommendationMap_find_NameID hfind]
    exact hfind
  · intro h
    have hmem := (RecMap.mem_iff_find _ hnd _ _).2 h
    exact List.mem_map.2 ⟨(r.NameID, r), (ord.perm _).mem_iff.2 hmem, rfl⟩

theorem createRecommendation_map_NameID (ord : MapOrder)
    (assessments : List DefenderAssessment) (metadatas : List AssessmentMetadata) :
    ((createRecommendation ord assessments metadatas).map fun r => r.NameID).Perm
      (recommendationMap assessments metadatas).keys := by
  unfold createRecommendation
  have hnd := recommendationMap_keys_nodup assessments metadatas
  have hfst : (ord.range (recommendationMap assessments metadatas)).map
      (fun p => p.2.NameID) =
      (ord.range (recommendationMap assessments metadatas)).map Prod.fst := by
    apply List.map_congr_left
    intro p hp
    obtain ⟨k, v⟩ := p
    have hmem := (ord.perm _).mem_iff.1 hp
    exact recommendationMap_find_NameID ((RecMap.mem_iff_find _ hnd k v).1 hmem)
  rw [List.map_map]
  have hcomp : ((fun r : Recommendation => r.NameID) ∘ Prod.snd) =
      fun p : String × Recommendation => p.2.NameID := rfl
  rw [hcomp, hfst]
  exact (ord.perm _).map Prod.fst

theorem mem_recommendationMap_keys (assessments : List DefenderAssessment)
    (metadatas : List AssessmentMetadata) (k : String) :
    k ∈ (recommendationMap assessments metadatas).keys ↔
      ∃ a ∈ assessments, a.Properties.Status.Code = "Unhealthy" ∧ a.NameID = k := by
  rw [← not_iff_not, ← RecMap.find_eq_none_iff, recommendationMap_find]
  simp [groupedRecord, filterAssessments, isUnhealthy]

/-- Every field of a returned record, read off the two input lists. -/
theorem createRecommendation_record (ord : MapOrder) (assessments : List DefenderAssessment)
    (metadatas : List AssessmentMetadata) (r : Recommendation)
    (hr : r ∈ createRecommendation ord assessments metadatas) :
    ∃ a, (filterAssessments assessments).find? (fun a => decide (a.NameID = r.NameID)) = some a ∧
      r = overlayRecord metadatas r.NameID
        { NameID := a.NameID
          DisplayName := a.Properties.DisplayName
          Description := "Unknown"
          Severity := "Unknown"
          AffectedResources :=
            ((filterAssessments assessments).filter fun b => decide (b.NameID = r.NameID)).map
              fun b => b.Properties.ResourceDetails.ResourceName
          Remediation := "Unknown"
          Context := "Unknown" } := by
  have h := (mem_createRecommendation ord assessments metadatas r).1 hr
  rw [recommendationMap_find] at h
  unfold groupedRecord at h
  cases hf : (filterAssessments assessments).find? (fun a => decide (a.NameID = r.NameID)) with
  | none => simp [hf] at h
  | some a =>
    simp only [hf, Option.map_some', Option.some.injEq] at h
    exact ⟨a, rfl, h.symm⟩

/-! ## The claims on `createRecommendation` -/

/-- C1: the result of `createRecommendation` holds exactly one record for each distinct
NameID occurring among the Unhealthy findings and nothing else: the NameIDs of the returned
records are pairwise distinct, a NameID occurs among them exactly when some Unhealthy finding
carries it, and it then occurs exactly once. -/
theorem createRecommendation_one_record_per_unhealthy_id (ord : MapOrder)
    (assessments : List DefenderAssessment) (metadatas : List AssessmentMetadata) :
    ((createRecommendation ord assessments metadatas).map fun r => r.NameID).Nodup ∧
    (∀ k, k ∈ ((createRecommendation ord assessments metadatas).map fun r => r.NameID) ↔
      ∃ a ∈ assessments, a.Properties.Status.Code = "Unhealthy" ∧ a.NameID = k) ∧
    (∀ k, (∃ a ∈ assessments, a.Properties.Status.Code = "Unhealthy" ∧ a.NameID = k) →
      ((createRecommendation ord assessments metadatas).map fun r => r.NameID).count k = 1) := by
  have hperm := createRecommendation_map_NameID ord assessments metadatas
  have hnd : ((createRecommendation ord assessments metadatas).map fun r => r.NameID).Nodup :=
    hperm.nodup_iff.2 (recommendationMap_keys_nodup assessments metadatas)
  have hmem : ∀ k, k ∈ ((createRecommendation ord assessments metadatas).map fun r => r.NameID) ↔
      ∃ a ∈ assessments, a.Properties.Status.Code = "Unhealthy" ∧ a.NameID = k := by
    intro k
    rw [hperm.mem_iff]
    exact mem_recommendationMap_keys assessments metadatas k
  exact ⟨hnd, hmem, fun k hk => List.count_eq_one_of_mem hnd ((hmem k).2 hk)⟩

/-- C2: the AffectedResources of a returned record is the list of ResourceName values of the
findings that are Unhealthy and carry the record's NameID, in input order and with
duplicates kept; its length is the number of such findings. -/
theorem createRecommendation_affectedResources (ord : MapOrder)
    (assessments : List DefenderAssessment) (metadatas : List AssessmentMetadata)
    (k : String) (r : Recommendation)
    (hr : r ∈ createRecommendation ord assessments metadatas) (hk : r.NameID = k) :
    r.AffectedResources =
      (assessments.filter fun a =>
        decide (a.Properties.Status.Code = "Unhealthy") && decide (a.NameID = k)).map
        (fun a => a.Properties.ResourceDetails.ResourceName) ∧
    r.AffectedResources.length =
      assessments.countP fun a =>
        decide (a.Properties.Status.Code = "Unhealthy") && decide (a.NameID = k) := by
  subst hk
  obtain ⟨a, -, hrec⟩ := createRecommendation_record ord assessments metadatas r hr
  have haff : r.AffectedResources =
      (assessments.filter fun a =>
        decide (a.Properties.Status.Code = "Unhealthy") && decide (a.NameID = r.NameID)).map
        (fun a => a.Properties.ResourceDetails.ResourceName) := by
    have h2 := congrArg Recommendation.AffectedResources hrec
    have h3 : ∀ r0 : Recommendation,
        (overlayRecord metadatas r.NameID r0).AffectedResources = r0.AffectedResources := by
      intro r0
      unfold overlayRecord
      split <;> rfl
    rw [h3] at h2
    rw [h2]
    simp only [filterAssessments, List.filter_filter, isUnhealthy]
    congr 1
    apply List.filter_congr
    intro x _
    exact Bool.and_comm _ _
  refine ⟨haff, ?_⟩
  rw [haff, List.length_map, List.countP_eq_length_filter]

theorem recommendationMap_filter (assessments : List DefenderAssessment)
    (metadatas : List AssessmentMetadata) :
    recommendationMap
      (assessments.filter fun a => decide (a.Properties.Status.Code = "Unhealthy")) metadatas =
    recommendationMap assessments metadatas := by
  unfold recommendationMap filterAssessments
  congr 2
  rw [List.filter_filter]
  apply List.filter_congr
  intro x _
  simp [isUnhealthy]

theorem createRecommendation_perm_of_map_eq (ord1 ord2 : MapOrder)
    (as1 as2 : List DefenderAssessment) (ms1 ms2 : List AssessmentMetadata)
    (h : recommendationMap as1 ms1 = recommendationMap as2 ms2) :
    (createRecommendation ord1 as1 ms1).Perm (createRecommendation ord2 as2 ms2) := by
  unfold createRecommendation
  rw [h]
  exact ((ord1.perm _).trans (ord2.perm _).symm).map Prod.snd

/-- C3: only the findings whose status code is exactly "Unhealthy" influence the output:
whatever the two iteration orders, `createRecommendation` returns the same records on the
findings list and on that list with every finding of another status removed (and the same
sequence when the iteration order is the same); "Healthy", "unhealthy", "Unhealthy " and
the empty string are such other statuses. -/
theorem createRecommendation_only_unhealthy (ord1 ord2 : MapOrder)
    (assessments : List DefenderAssessment) (metadatas : List AssessmentMetadata) :
    (createRecommendation ord1 assessments metadatas).Perm
      (createRecommendation ord2
        (assessments.filter fun a => decide (a.Properties.Status.Code = "Unhealthy"))
        metadatas) ∧
    createRecommendation ord1 assessments metadatas =
      createRecommendation ord1
        (assessments.filter fun a => decide (a.Properties.Status.Code = "Unhealthy"))
        metadatas ∧
    (∀ a : DefenderAssessment,
      a.Properties.Status.Code ∈ ["Healthy", "unhealthy", "Unhealthy ", ""] →
        isUnhealthy a = false) := by
  refine ⟨?_, ?_, ?_⟩
  · exact createRecommendation_perm_of_map_eq _ _ _ _ _ _
      (recommendationMap_filter assessments metadatas).symm
  · unfold createRecommendation
    rw [recommendationMap_filter]
  · intro a ha
    simp only [List.mem_cons, List.mem_singleton, List.not_mem_nil, or_false] at ha
    unfold isUnhealthy
    rcases ha with h | h | h | h <;> rw [h] <;> decide

/-- C4: a returned record with NameID `k` has the display name of the first Unhealthy finding
with NameID `k` and Context "Unknown"; its Description, Severity and Remediation are
"Unknown" when no metadata entry has NameID `k`, and otherwise are those of the last
metadata entry with NameID `k`. -/
theorem createRecommendation_fields (ord : MapOrder)
    (assessments : List DefenderAssessment) (metadatas : List AssessmentMetadata)
    (k : String) (r : Recommendation)
    (hr : r ∈ createRecommendation ord assessments metadatas) (hk : r.NameID = k) :
    (∃ a, assessments.find? (fun a =>
          decide (a.Properties.Status.Code = "Unhealthy") && decide (a.NameID = k)) = some a ∧
        r.DisplayName = a.Properties.DisplayName) ∧
    r.Context = "Unknown" ∧
    ((∀ md ∈ metadatas, md.NameID ≠ k) →
      r.Description = "Unknown" ∧ r.Severity = "Unknown" ∧ r.Remediation = "Unknown") ∧
    (∀ md, (metadatas.filter fun md => decide (md.NameID = k)).getLast? = some md →
      r.Description = md.Properties.Description ∧ r.Severity = md.Properties.Severity ∧
        r.Remediation = md.Properties.Remediation) := by
  subst hk
  obtain ⟨a, ha, hrec⟩ := createRecommendation_record ord assessments metadatas r hr
  have hfind : assessments.find? (fun a =>
      decide (a.Properties.Status.Code = "Unhealthy") && decide (a.NameID = r.NameID)) =
      some a := by
    rw [← ha]
    simp only [filterAssessments, List.find?_filter, isUnhealthy]
    congr 1
    funext x
    simp
  refine ⟨⟨a, hfind, ?_⟩, ?_, ?_, ?_⟩
  · rw [hrec]
    unfold overlayRecord
    split <;> rfl
  · rw [hrec]
    unfold overlayRecord
    split <;> rfl
  · intro hnone
    have hempty : (metadatas.filter fun md => decide (md.NameID = r.NameID)) = [] := by
      simpa [List.filter_eq_nil_iff] using hnone
    rw [hrec]
    simp [overlayRecord, hempty]
  · intro md hmd
    rw [hrec]
    simp [overlayRecord, hmd]

theorem overlay_filter_keys (ms : List AssessmentMetadata) (m : RecMap) :
    ms.foldl overlayStep m =
      (ms.filter fun md => decide (md.NameID ∈ m.keys)).foldl overlayStep m := by
  induction ms generalizing m with
  | nil => rfl
  | cons md rest ih =>
    by_cases hmem : md.NameID ∈ m.keys
    · rw [List.filter_cons_of_pos (by simpa using hmem), List.foldl_cons, List.foldl_cons,
        ih (overlayStep m md), overlayStep_keys]
    · have hnone : m.find md.NameID = none := (RecMap.find_eq_none_iff m _).2 hmem
      have hstep : overlayStep m md = m := by
        unfold overlayStep
        rw [hnone]
      rw [List.filter_cons_of_neg (by simpa using hmem), List.foldl_cons, hstep, ih m]

theorem recommendationMap_filter_matched (assessments : List DefenderAssessment)
    (metadatas : List AssessmentMetadata) :
    recommendationMap assessments metadatas =
      recommendationMap assessments (metadatas.filter (matchesUnhealthy assessments)) := by
  have hkeys : ∀ md : AssessmentMetadata,
      decide (md.NameID ∈ (recommendationMap assessments []).keys) =
        matchesUnhealthy assessments md := by
    intro md
    rw [Bool.eq_iff_iff]
    simp only [decide_eq_true_eq, mem_recommendationMap_keys, matchesUnhealthy, List.any_eq_true,
      Bool.and_eq_true]
  have hrew : ∀ ms : List AssessmentMetadata,
      recommendationMap assessments ms =
        (ms.filter (matchesUnhealthy assessments)).foldl overlayStep
          (recommendationMap assessments []) := by
    intro ms
    show ms.foldl overlayStep (recommendationMap assessments []) = _
    rw [overlay_filter_keys]
    congr 1
    apply List.filter_congr
    intro md _
    exact hkeys md
  rw [hrew metadatas, hrew (metadatas.filter (matchesUnhealthy assessments)),
    List.filter_filter]
  congr 1
  apply List.filter_congr
  intro md _
  simp

/-- C5: metadata entries whose NameID matches no Unhealthy finding are a no-op: two metadata
lists that differ only by such entries (their matched entries form the same sequence) give
the same sequence of records under one iteration order, the same records under any two
iteration orders, and so the same number of records. -/
theorem createRecommendation_unmatched_metadata_noop (ord1 ord2 : MapOrder)
    (assessments : List DefenderAssessment) (metadatas metadatas' : List AssessmentMetadata)
    (h : metadatas.filter (matchesUnhealthy assessments) =
      metadatas'.filter (matchesUnhealthy assessments)) :
    createRecommendation ord1 assessments metadatas =
      createRecommendation ord1 assessments metadatas' ∧
    (createRecommendation ord1 assessments metadatas).Perm
      (createRecommendation ord2 assessments metadatas') ∧
    (createRecommendation ord1 assessments metadatas).length =
      (createRecommendation ord2 assessments metadatas').length := by
  have hmap : recommendationMap assessments metadatas =
      recommendationMap assessments metadatas' := by
    rw [recommendationMap_filter_matched assessments metadatas,
      recommendationMap_filter_matched assessments metadatas', h]
  have hperm := createRecommendation_perm_of_map_eq ord1 ord2 _ _ _ _ hmap
  refine ⟨?_, hperm, hperm.length_eq⟩
  unfold createRecommendation
  rw [hmap]

/-- C6: on the end-to-end scenario, whatever the display names and the iteration order,
`createRecommendation` returns exactly the two records CVE1 (resources vm1, vm2 and the
metadata fields d1, High, r1) and CVE2 (resource vm3, everything else "Unknown"), and no
record for CVE3. -/
theorem createRecommendation_scenario (ord : MapOrder) (n1 n2 n3 n4 nm : String) :
    (createRecommendation ord
      [scenarioFinding "CVE1" "Unhealthy" "vm1" n1, scenarioFinding "CVE1" "Unhealthy" "vm2" n2,
        scenarioFinding "CVE2" "Unhealthy" "vm3" n3, scenarioFinding "CVE3" "Healthy" "vm4" n4]
      [⟨"CVE1", ⟨nm, "d1", "r1", "High"⟩⟩]).Perm
      [⟨"CVE1", n1, "d1", "High", ["vm1", "vm2"], "r1", "Unknown"⟩,
        ⟨"CVE2", n3, "Unknown", "Unknown", ["vm3"], "Unknown", "Unknown"⟩] ∧
    (createRecommendation ord
      [scenarioFinding "CVE1" "Unhealthy" "vm1" n1, scenarioFinding "CVE1" "Unhealthy" "vm2" n2,
        scenarioFinding "CVE2" "Unhealthy" "vm3" n3, scenarioFinding "CVE3" "Healthy" "vm4" n4]
      [⟨"CVE1", ⟨nm, "d1", "r1", "High"⟩⟩]).length = 2 ∧
    (∀ r ∈ createRecommendation ord
      [scenarioFinding "CVE1" "Unhealthy" "vm1" n1, scenarioFinding "CVE1" "Unhealthy" "vm2" n2,
        scenarioFinding "CVE2" "Unhealthy" "vm3" n3, scenarioFinding "CVE3" "Healthy" "vm4" n4]
      [⟨"CVE1", ⟨nm, "d1", "r1", "High"⟩⟩], r.NameID ≠ "CVE3") := by
  have hmap : recommendationMap
      [scenarioFinding "CVE1" "Unhealthy" "vm1" n1, scenarioFinding "CVE1" "Unhealthy" "vm2" n2,
        scenarioFinding "CVE2" "Unhealthy" "vm3" n3, scenarioFinding "CVE3" "Healthy" "vm4" n4]
      [⟨"CVE1", ⟨nm, "d1", "r1", "High"⟩⟩] =
      [("CVE1", ⟨"CVE1", n1, "d1", "High", ["vm1", "vm2"], "r1", "Unknown"⟩),
        ("CVE2", ⟨"CVE2", n3, "Unknown", "Unknown", ["vm3"], "Unknown", "Unknown"⟩)] := by
    rfl
  have hperm : (createRecommendation ord
      [scenarioFinding "CVE1" "Unhealthy" "vm1" n1, scenarioFinding "CVE1" "Unhealthy" "vm2" n2,
        scenarioFinding "CVE2" "Unhealthy" "vm3" n3, scenarioFinding "CVE3" "Healthy" "vm4" n4]
      [⟨"CVE1", ⟨nm, "d1", "r1", "High"⟩⟩]).Perm
      [⟨"CVE1", n1, "d1", "High", ["vm1", "vm2"], "r1", "Unknown"⟩,
        ⟨"CVE2", n3, "Unknown", "Unknown", ["vm3"], "Unknown", "Unknown"⟩] := by
    unfold createRecommendation
    rw [hmap]
    exact (ord.perm _).map Prod.snd
  refine ⟨hperm, hperm.length_eq, ?_⟩
  intro r hr
  have hr2 := hperm.mem_iff.1 hr
  simp only [List.mem_cons, List.mem_singleton, List.not_mem_nil, or_false] at hr2
  rcases hr2 with h | h
  · rw [h]
    show ("CVE1" : String) ≠ "CVE3"
    decide
  · rw [h]
    show ("CVE2" : String) ≠ "CVE3"
    decide

/-- Witness of C2 on the sample inputs, iterating the map in reverse insertion order. -/
theorem createRecommendation_affectedResources_witness :
    sampleRecord ∈ createRecommendation MapOrder.reversed sampleFindings sampleMetadata ∧
    sampleRecord.NameID = "CVE1" ∧
    (sampleRecord.AffectedResources =
      (sampleFindings.filter fun a =>
        decide (a.Properties.Status.Code = "Unhealthy") && decide (a.NameID = "CVE1")).map
        (fun a => a.Properties.ResourceDetails.ResourceName) ∧
    sampleRecord.AffectedResources.length =
      sampleFindings.countP fun a =>
        decide (a.Properties.Status.Code = "Unhealthy") && decide (a.NameID = "CVE1")) :=
  ⟨by decide, rfl,
    createRecommendation_affectedResources MapOrder.reversed sampleFindings sampleMetadata
      "CVE1" sampleRecord (by decide) rfl⟩

/-- Witness of C3 on the sample inputs: the lower-case "unhealthy" finding is dropped. -/
theorem createRecommendation_only_unhealthy_witness :
    createRecommendation MapOrder.insertion sampleFindings sampleMetadata =
      createRecommendation MapOrder.insertion
        [scenarioFinding "CVE1" "Unhealthy" "vm1" "first",
          scenarioFinding "CVE2" "Unhealthy" "vm3" "second",
          scenarioFinding "CVE1" "Unhealthy" "vm2" "again"] sampleMetadata ∧
    isUnhealthy (scenarioFinding "CVE1" "unhealthy" "vm5" "lower") = false :=
  ⟨(createRecommendation_only_unhealthy MapOrder.insertion MapOrder.reversed sampleFindings
      sampleMetadata).2.1,
    (createRecommendation_only_unhealthy MapOrder.insertion MapOrder.reversed sampleFindings
      sampleMetadata).2.2 (scenarioFinding "CVE1" "unhealthy" "vm5" "lower") (by decide)⟩

/-- Witness of C4 on the sample inputs: the record of CVE1 takes the display name of the
first Unhealthy finding and the fields of the last of the two CVE1 metadata entries. -/
theorem createRecommendation_fields_witness :
    sampleRecord ∈ createRecommendation MapOrder.reversed sampleFindings sampleMetadata ∧
    sampleRecord.DisplayName = "first" ∧ sampleRecord.Context = "Unknown" ∧
    sampleRecord.Description = "d1" ∧ sampleRecord.Severity = "High" ∧
    sampleRecord.Remediation = "r1" := by
  have h := createRecommendation_fields MapOrder.reversed sampleFindings sampleMetadata "CVE1"
    sampleRecord (by decide) rfl
  have hfirst : sampleFindings.find? (fun a =>
      decide (a.Properties.Status.Code = "Unhealthy") && decide (a.NameID = "CVE1")) =
      some (scenarioFinding "CVE1" "Unhealthy" "vm1" "first") := by decide
  have hlast : (sampleMetadata.filter fun md => decide (md.NameID = "CVE1")).getLast? =
      some ⟨"CVE1", ⟨"n1", "d1", "r1", "High"⟩⟩ := by decide
  obtain ⟨⟨a, ha, hd⟩, hctx, -, hmeta⟩ := h
  rw [hfirst] at ha
  cases ha
  exact ⟨by decide, hd, hctx, hmeta _ hlast⟩

/-- Witness of C5 on the sample inputs: dropping the metadata of CVE9 and CVE3, which no
Unhealthy finding has, changes nothing. -/
theorem createRecommendation_unmatched_metadata_noop_witness :
    sampleMetadata.filter (matchesUnhealthy sampleFindings) =
      [(⟨"CVE1", ⟨"n1", "d0", "r0", "Low"⟩⟩ : AssessmentMetadata),
        ⟨"CVE1", ⟨"n1", "d1", "r1", "High"⟩⟩].filter (matchesUnhealthy sampleFindings) ∧
    createRecommendation MapOrder.insertion sampleFindings sampleMetadata =
      createRecommendation MapOrder.insertion sampleFindings
        [⟨"CVE1", ⟨"n1", "d0", "r0", "Low"⟩⟩, ⟨"CVE1", ⟨"n1", "d1", "r1", "High"⟩⟩] :=
  ⟨by decide,
    (createRecommendation_unmatched_metadata_noop MapOrder.insertion MapOrder.reversed
      sampleFindings sampleMetadata _ (by decide)).1⟩

/-! ## Lemmas on the parser -/

theorem indexFrom_of_isPrefixOf (substr s : List Char) (h : substr.isPrefixOf s = true) :
    indexFrom substr s = some 0 := by
  cases s with
  | nil =>
    cases substr with
    | nil => rfl
    | cons c rest => simp [List.isPrefixOf] at h
  | cons c rest => simp [indexFrom, h]

theorem indexFrom_bound (substr s : List Char) (i : Nat) (h : indexFrom substr s = some i) :
    i + substr.length ≤ s.length := by
  induction s generalizing i with
  | nil =>
    cases substr with
    | nil => simp [indexFrom] at h; omega
    | cons c rest => simp [indexFrom] at h
  | cons c rest ih =>
    unfold indexFrom at h
    by_cases hp : substr.isPrefixOf (c :: rest) = true
    · rw [if_pos hp] at h
      have hi : i = 0 := by simpa using h.symm
      have hle := (List.isPrefixOf_iff_prefix.1 hp).length_le
      omega
    · rw [if_neg hp] at h
      cases hj : indexFrom substr rest with
      | none => simp [hj] at h
      | some j =>
        have hi : i = j + 1 := by simpa [hj] using h.symm
        have := ih j hj
        simp only [List.length_cons]
        omega

theorem strings.Index_of_some {s marker : String} {i : Nat}
    (h : firstOccurrence s marker = some i) : strings.Index s marker = (i : Int) := by
  unfold firstOccurrence at h
  simp [strings.Index, h]

theorem strings.Index_of_none {s marker : String}
    (h : firstOccurrence s marker = none) : strings.Index s marker = -1 := by
  unfold firstOccurrence at h
  simp [strings.Index, h]

theorem firstOccurrence_bound {s marker : String} {i : Nat}
    (h : firstOccurrence s marker = some i) : i + marker.length ≤ s.length :=
  indexFrom_bound _ _ _ h

theorem natCast_ne_neg_one (i : Nat) : (i : Int) ≠ -1 := by omega

theorem slice_natCast (s : String) (lo hi : Nat) (h1 : lo ≤ hi) (h2 : hi ≤ s.length) :
    slice s (lo : Int) (hi : Int) = some (substring s lo hi) := by
  unfold slice substring
  have hc : (0 : Int) ≤ (lo : Int) ∧ (lo : Int) ≤ (hi : Int) ∧ (hi : Int) ≤ (s.length : Int) :=
    ⟨by omega, by omega, by omega⟩
  rw [if_pos hc]
  simp

theorem sliceFrom_natCast (s : String) (lo : Nat) (h1 : lo ≤ s.length) :
    sliceFrom s (lo : Int) = some (substring s lo s.length) :=
  slice_natCast s lo s.length h1 (Nat.le_refl _)

theorem parseAIResponse_eq_specSection (response : String)
    (her : ∀ e r, firstOccurrence response explanationMarker = some e →
      firstOccurrence response remediationMarker = some r → e + explanationMarker.length ≤ r)
    (hec : ∀ e c, firstOccurrence response explanationMarker = some e →
      firstOccurrence response contextMarker = some c → e + explanationMarker.length ≤ c)
    (hrc : ∀ r c, firstOccurrence response remediationMarker = some r →
      firstOccurrence response contextMarker = some c → r + remediationMarker.length ≤ c) :
    parseAIResponse response =
      some (specSection response explanationMarker [remediationMarker, contextMarker],
        specSection response remediationMarker [contextMarker],
        specSection response contextMarker []) := by
  rcases he : firstOccurrence response explanationMarker with _ | e <;>
  rcases hr : firstOccurrence response remediationMarker with _ | r <;>
  rcases hc : firstOccurrence response contextMarker with _ | c
  all_goals
    simp only [parseAIResponse, specSection, he, hr, hc, List.filterMap_cons, List.filterMap_nil,
      List.head?_cons, List.head?_nil]
  all_goals
    first
    | rw [strings.Index_of_none he]
    | rw [strings.Index_of_some he]
  all_goals
    first
    | rw [strings.Index_of_none hr]
    | rw [strings.Index_of_some hr]
  all_goals
    first
    | rw [strings.Index_of_none hc]
    | rw [strings.Index_of_some hc]
  all_goals try have hbe := firstOccurrence_bound he
  all_goals try have hbr := firstOccurrence_bound hr
  all_goals try have hbc := firstOccurrence_bound hc
  all_goals try have h1 := her _ _ he hr
  all_goals try have h2 := hec _ _ he hc
  all_goals try have h3 := hrc _ _ hr hc
  all_goals
    simp only [ne_eq, not_true_eq_false, if_false, natCast_ne_neg_one, not_false_eq_true,
      if_true, ← Nat.cast_add]
  all_goals
    repeat
      first
      | rw [slice_natCast _ _ _ (by omega) (by omega)]
      | rw [sliceFrom_natCast _ _ (by omega)]
  all_goals rfl

theorem strings.Index_nonneg_cases (s marker : String) :
    (strings.Index s marker = -1 ∧ firstOccurrence s marker = none) ∨
      ∃ i : Nat, strings.Index s marker = (i : Int) ∧ firstOccurrence s marker = some i := by
  cases h : firstOccurrence s marker with
  | none => exact Or.inl ⟨strings.Index_of_none h, rfl⟩
  | some i => exact Or.inr ⟨i, strings.Index_of_some h, rfl⟩

theorem firstOccurrence_of_Index {s marker : String} {i : Nat}
    (h : strings.Index s marker = (i : Int)) : firstOccurrence s marker = some i := by
  rcases strings.Index_nonneg_cases s marker with ⟨h1, -⟩ | ⟨j, h1, h2⟩
  · rw [h1] at h
    omega
  · rw [h1] at h
    have : j = i := by omega
    rw [h2, this]

theorem list_drop_take_mid {α : Type} (x y z : List α) (lo hi : Nat) (hlo : lo = x.length)
    (hhi : hi = x.length + y.length) : ((x ++ y ++ z).drop lo).take (hi - lo) = y := by
  subst hlo hhi
  simp

theorem substring_mid (t x y z : String) (lo hi : Nat) (ht : t = x ++ y ++ z)
    (hlo : lo = x.length) (hhi : hi = x.length + y.length) : substring t lo hi = y := by
  subst ht
  unfold substring
  have hd : (x ++ y ++ z).data = x.data ++ y.data ++ z.data := by
    simp [String.data_append]
  rw [hd, list_drop_take_mid x.data y.data z.data lo hi hlo hhi]

theorem strings.Index_prefix (marker rest : String) :
    strings.Index (marker ++ rest) marker = 0 := by
  have h : firstOccurrence (marker ++ rest) marker = some 0 := by
    unfold firstOccurrence
    apply indexFrom_of_isPrefixOf
    rw [List.isPrefixOf_iff_prefix, String.data_append]
    exact List.prefix_append _ _
  simpa using strings.Index_of_some h

/-! ## The claims on `parseAIResponse` -/

/-- C7: for all strings `a`, `b`, `c`, when in the text made of the explanation marker, `a`,
the remediation marker, `b`, the context marker and `c` the first occurrence of each marker
is the one written (for the explanation marker this always holds, and is proved), then
`parseAIResponse` returns the three strings `a`, `b`, `c` with their leading and trailing
white space removed. -/
theorem parseAIResponse_exact (a b c : String)
    (hrem : strings.Index
        (explanationMarker ++ a ++ remediationMarker ++ b ++ contextMarker ++ c)
        remediationMarker = ((explanationMarker.length + a.length : Nat) : Int))
    (hctx : strings.Index
        (explanationMarker ++ a ++ remediationMarker ++ b ++ contextMarker ++ c)
        contextMarker =
        ((explanationMarker.length + a.length + remediationMarker.length + b.length : Nat) : Int)) :
    strings.Index (explanationMarker ++ a ++ remediationMarker ++ b ++ contextMarker ++ c)
        explanationMarker = 0 ∧
    parseAIResponse (explanationMarker ++ a ++ remediationMarker ++ b ++ contextMarker ++ c) =
      some (strings.TrimSpace a, strings.TrimSpace b, strings.TrimSpace c) := by
  have hexp : strings.Index
      (explanationMarker ++ a ++ remediationMarker ++ b ++ contextMarker ++ c)
      explanationMarker = ((0 : Nat) : Int) := by
    have := strings.Index_prefix explanationMarker (a ++ remediationMarker ++ b ++ contextMarker ++ c)
    simpa [String.append_assoc] using this
  refine ⟨by simpa using hexp, ?_⟩
  have hlen : (explanationMarker ++ a ++ remediationMarker ++ b ++ contextMarker ++ c).length =
      explanationMarker.length + a.length + remediationMarker.length + b.length +
        contextMarker.length + c.length := by
    simp [String.length_append]
  unfold parseAIResponse
  simp only [hexp, hrem, hctx, ne_eq, natCast_ne_neg_one, not_false_eq_true, if_true,
    ← Nat.cast_add]
  rw [slice_natCast _ _ _ (by omega) (by omega), slice_natCast _ _ _ (by omega) (by omega),
    sliceFrom_natCast _ _ (by omega)]
  rw [substring_mid _ explanationMarker a (remediationMarker ++ b ++ contextMarker ++ c) _ _
      (by simp [String.append_assoc]) (by omega) (by omega),
    substring_mid _ (explanationMarker ++ a ++ remediationMarker) b (contextMarker ++ c) _ _
      (by simp [String.append_assoc]) (by simp [String.length_append])
      (by simp [String.length_append]),
    substring_mid _ (explanationMarker ++ a ++ remediationMarker ++ b ++ contextMarker) c "" _ _
      (by simp) (by simp [String.length_append]) (by simp [String.length_append])]
  rfl

/-- C8: when the first occurrences of the markers that are present come in canonical order
without overlapping, `parseAIResponse` returns, for every marker, the section that the
specification words: the trimmed text between the end of the marker and the start of the
next present marker (or the end of the text), and the empty string for an absent marker.
In particular a text with only the remediation and context markers gives an empty
explanation and the two trimmed sections, and a text with no marker gives three empty
strings. -/
theorem parseAIResponse_sections (response : String)
    (her : strings.Index response explanationMarker ≠ -1 →
      strings.Index response remediationMarker ≠ -1 →
      strings.Index response explanationMarker + explanationMarker.length ≤
        strings.Index response remediationMarker)
    (hec : strings.Index response explanationMarker ≠ -1 →
      strings.Index response contextMarker ≠ -1 →
      strings.Index response explanationMarker + explanationMarker.length ≤
        strings.Index response contextMarker)
    (hrc : strings.Index response remediationMarker ≠ -1 →
      strings.Index response contextMarker ≠ -1 →
      strings.Index response remediationMarker + remediationMarker.length ≤
        strings.Index response contextMarker) :
    parseAIResponse response =
      some (specSection response explanationMarker [remediationMarker, contextMarker],
        specSection response remediationMarker [contextMarker],
        specSection response contextMarker []) ∧
    (∀ r c : Nat, strings.Index response explanationMarker = -1 →
      strings.Index response remediationMarker = (r : Int) →
      strings.Index response contextMarker = (c : Int) →
      parseAIResponse response =
        some ("", strings.TrimSpace (substring response (r + remediationMarker.length) c),
          strings.TrimSpace (substring response (c + contextMarker.length) response.length))) ∧
    (strings.Index response explanationMarker = -1 →
      strings.Index response remediationMarker = -1 →
      strings.Index response contextMarker = -1 →
      parseAIResponse response = some ("", "", "")) := by
  have hmain : parseAIResponse response =
      some (specSection response explanationMarker [remediationMarker, contextMarker],
        specSection response remediationMarker [contextMarker],
        specSection response contextMarker []) := by
    apply parseAIResponse_eq_specSection
    · intro e r he hr
      have h := her (by rw [strings.Index_of_some he]; exact natCast_ne_neg_one e)
        (by rw [strings.Index_of_some hr]; exact natCast_ne_neg_one r)
      rw [strings.Index_of_some he, strings.Index_of_some hr] at h
      exact_mod_cast h
    · intro e c he hc
      have h := hec (by rw [strings.Index_of_some he]; exact natCast_ne_neg_one e)
        (by rw [strings.Index_of_some hc]; exact natCast_ne_neg_one c)
      rw [strings.Index_of_some he, strings.Index_of_some hc] at h
      exact_mod_cast h
    · intro r c hr hc
      have h := hrc (by rw [strings.Index_of_some hr]; exact natCast_ne_neg_one r)
        (by rw [strings.Index_of_some hc]; exact natCast_ne_neg_one c)
      rw [strings.Index_of_some hr, strings.Index_of_some hc] at h
      exact_mod_cast h
  have hnone : ∀ marker : String, strings.Index response marker = -1 →
      firstOccurrence response marker = none := by
    intro marker h
    rcases strings.Index_nonneg_cases response marker with ⟨-, h2⟩ | ⟨j, h1, -⟩
    · exact h2
    · rw [h1] at h
      omega
  refine ⟨hmain, ?_, ?_⟩
  · intro r c he hr hc
    rw [hmain]
    simp [specSection, hnone _ he, firstOccurrence_of_Index hr, firstOccurrence_of_Index hc]
  · intro he hr hc
    rw [hmain]
    simp [specSection, hnone _ he, hnone _ hr, hnone _ hc]

set_option maxRecDepth 8000

/-- Witness of C7: the text of the specification, with `a`, `b`, `c` the strings " A ", " B "
and " C", is parsed to A, B, C. -/
theorem parseAIResponse_exact_witness :
    strings.Index
      (explanationMarker ++ " A " ++ remediationMarker ++ " B " ++ contextMarker ++ " C")
      remediationMarker = ((explanationMarker.length + " A ".length : Nat) : Int) ∧
    strings.Index
      (explanationMarker ++ " A " ++ remediationMarker ++ " B " ++ contextMarker ++ " C")
      contextMarker =
      ((explanationMarker.length + " A ".length + remediationMarker.length + " B ".length : Nat) :
        Int) ∧
    parseAIResponse
      "**Explanation of the Vulnerability:** A **Remediation Steps:** B **Context about the Impact of the Vulnerability:** C" =
      some ("A", "B", "C") :=
  ⟨by decide, by decide,
    (parseAIResponse_exact " A " " B " " C" (by decide) (by decide)).2.trans (by decide)⟩

/-- Witness of C8: a text with only the remediation and context markers. -/
theorem parseAIResponse_sections_witness :
    strings.Index
      "Summary. **Remediation Steps:** patch it\n**Context about the Impact of the Vulnerability:** data loss "
      explanationMarker = -1 ∧
    strings.Index
      "Summary. **Remediation Steps:** patch it\n**Context about the Impact of the Vulnerability:** data loss "
      remediationMarker = 9 ∧
    strings.Index
      "Summary. **Remediation Steps:** patch it\n**Context about the Impact of the Vulnerability:** data loss "
      contextMarker = 41 ∧
    parseAIResponse
      "Summary. **Remediation Steps:** patch it\n**Context about the Impact of the Vulnerability:** data loss " =
      some ("", "patch it", "data loss") :=
  ⟨by decide, by decide, by decide,
    ((parseAIResponse_sections
      "Summary. **Remediation Steps:** patch it\n**Context about the Impact of the Vulnerability:** data loss "
      (by decide) (by decide) (by decide)).2.1 9 41 (by decide) (by decide) (by decide)).trans
      (by decide)⟩

/-- C9: on a response whose remediation marker stands before its explanation marker, the
slice of line 400 is taken with a lower bound above its upper bound and `parseAIResponse`
panics; the same happens when the two markers overlap. -/
theorem parseAIResponse_out_of_order_panics :
    strings.Index "**Remediation Steps:** fix **Explanation of the Vulnerability:** why"
      explanationMarker = 27 ∧
    strings.Index "**Remediation Steps:** fix **Explanation of the Vulnerability:** why"
      remediationMarker = 0 ∧
    slice "**Remediation Steps:** fix **Explanation of the Vulnerability:** why"
      (27 + explanationMarker.length) 0 = none ∧
    parseAIResponse "**Remediation Steps:** fix **Explanation of the Vulnerability:** why" =
      none ∧
    parseAIResponse "**Explanation of the Vulnerability:**Remediation Steps:** fix" = none := by
  decide

/-! ## Lemmas on the fetch loop -/

theorem makeRequestLoop_empty {W T : Type} (server : Server W T) (token : String) (fuel : Nat)
    (w : W) (allResults : List T) (requests : List String) :
    makeRequestLoop server token fuel w "" allResults requests =
      some ⟨Except.ok allResults, requests, w⟩ := by
  cases fuel <;> simp [makeRequestLoop]

theorem makeRequestLoop_step {W T : Type} (server : Server W T) (token : String) (fuel : Nat)
    (w : W) (url : String) (allResults : List T) (requests : List String) (p : Page T)
    (hurl : url ≠ "") (hp : (server w url token).1 = Except.ok p) :
    makeRequestLoop server token (fuel + 1) w url allResults requests =
      makeRequestLoop server token fuel (server w url token).2 p.NextLink
        (allResults ++ p.Value) (requests ++ [url]) := by
  rw [makeRequestLoop, if_neg hurl]
  rcases hsrv : server w url token with ⟨res, w'⟩
  rw [hsrv] at hp
  simp only at hp
  subst hp
  rfl

theorem makeRequestLoop_pages {W T : Type} (server : Server W T) (token : String)
    (pages : List (Page T)) :
    ∀ (fuel : Nat) (w : W) (url : String) (allResults : List T) (requests : List String),
      url ≠ "" → Serves server token w url pages → pages.length ≤ fuel →
      ∃ w', makeRequestLoop server token fuel w url allResults requests =
        some ⟨Except.ok (allResults ++ (pages.map Page.Value).flatten),
          requests ++ url :: pages.dropLast.map Page.NextLink, w'⟩ := by
  induction pages with
  | nil =>
    intro fuel w url allResults requests _ hs
    exact absurd hs (by simp [Serves])
  | cons p rest ih =>
    intro fuel w url allResults requests hurl hs hfuel
    cases fuel with
    | zero => simp at hfuel
    | succ fuel =>
      cases rest with
      | nil =>
        obtain ⟨hp, hlast⟩ : (server w url token).1 = Except.ok p ∧ p.NextLink = "" := by
          simpa [Serves] using hs
        refine ⟨(server w url token).2, ?_⟩
        rw [makeRequestLoop_step server token fuel w url allResults requests p hurl hp, hlast,
          makeRequestLoop_empty]
        simp
      | cons q rest =>
        obtain ⟨hp, hnext, hrest⟩ : (server w url token).1 = Except.ok p ∧ p.NextLink ≠ "" ∧
            Serves server token (server w url token).2 p.NextLink (q :: rest) := by
          simpa [Serves] using hs
        obtain ⟨w', hw'⟩ := ih fuel (server w url token).2 p.NextLink (allResults ++ p.Value)
          (requests ++ [url]) hnext hrest (by simpa using hfuel)
        refine ⟨w', ?_⟩
        rw [makeRequestLoop_step server token fuel w url allResults requests p hurl hp, hw']
        simp

/-! ## The claim on `makeRequest` -/

/-- C10: when the pages `p1..pn` (`n ≥ 1`) are served successfully from the start URL (a
URL that can be requested, so not the empty string), every page but the last carrying a
non-empty `nextLink` that returns the next page and the last an empty one, `makeRequest`
returns (for every fuel of at least `n` iterations) no error and the concatenation of the
pages' values in arrival order, and it requests exactly the start URL and the `n - 1`
non-empty links, `n` requests in all. -/
theorem makeRequest_pages {W T : Type} (server : Server W T) (token : String)
    (pages : List (Page T)) (fuel : Nat) (w : W) (apiUrl : String)
    (hurl : apiUrl ≠ "") (hserve : Serves server token w apiUrl pages)
    (hfuel : pages.length ≤ fuel) :
    ∃ out, makeRequest server fuel w apiUrl token = some out ∧
      out.result = Except.ok (pages.map Page.Value).flatten ∧
      out.requests = apiUrl :: pages.dropLast.map Page.NextLink ∧
      out.requests.length = pages.length := by
  obtain ⟨w', hw'⟩ := makeRequestLoop_pages server token pages fuel w apiUrl [] [] hurl hserve
    hfuel
  refine ⟨_, hw', by simp, by simp, ?_⟩
  have hne : pages ≠ [] := by
    rintro rfl
    simp [Serves] at hserve
  simp [List.length_dropLast]
  have := List.length_pos.2 hne
  omega

/-- Witness of C10: two pages served by `sampleServer`. -/
theorem makeRequest_pages_witness :
    ("u1" : String) ≠ "" ∧
    Serves sampleServer "token" 0 "u1" [⟨[1, 2], "u2"⟩, ⟨[3], ""⟩] ∧
    ∃ out, makeRequest sampleServer 2 0 "u1" "token" = some out ∧
      out.result = Except.ok [1, 2, 3] ∧ out.requests = ["u1", "u2"] ∧
      out.requests.length = 2 :=
  ⟨by decide, ⟨rfl, by decide, rfl, rfl⟩,
    makeRequest_pages sampleServer "token" [⟨[1, 2], "u2"⟩, ⟨[3], ""⟩] 2 0 "u1" (by decide)
      ⟨rfl, by decide, rfl, rfl⟩ (by decide)⟩

/-! ## The claim on the order of the records returned by `createRecommendation` -/

/-- C11, as stated, fails: the returned sequence is not a function of the two inputs.  On
the sample inputs the loop of line 262 returns the record of CVE1 before that of CVE2 when
it ranges over the map in insertion order, and after it when it ranges in reverse order;
neither the findings nor the metadata differ between the two runs. -/
theorem createRecommendation_order_not_fixed :
    createRecommendation MapOrder.insertion sampleFindings sampleMetadata =
      [sampleRecord, ⟨"CVE2", "second", "Unknown", "Unknown", ["vm3"], "Unknown", "Unknown"⟩] ∧
    createRecommendation MapOrder.reversed sampleFindings sampleMetadata =
      [⟨"CVE2", "second", "Unknown", "Unknown", ["vm3"], "Unknown", "Unknown"⟩, sampleRecord] ∧
    ¬ ∀ (ord1 ord2 : MapOrder) (assessments : List DefenderAssessment)
        (metadatas : List AssessmentMetadata),
        createRecommendation ord1 assessments metadatas =
          createRecommendation ord2 assessments metadatas := by
  refine ⟨by decide, by decide, ?_⟩
  intro h
  have hne : createRecommendation MapOrder.insertion sampleFindings sampleMetadata ≠
      createRecommendation MapOrder.reversed sampleFindings sampleMetadata := by decide
  exact hne (h MapOrder.insertion MapOrder.reversed sampleFindings sampleMetadata)

/-- C11, amended: the records returned by `createRecommendation` are fixed by the two inputs
up to their order.  Whatever the orders in which two runs range over the map, the two
returned sequences are rearrangements of each other (and of the sequence in insertion order
of the map), they have the same length, and a run that ranges in the same order returns the
same sequence. -/
theorem createRecommendation_records_fixed_up_to_order (ord1 ord2 : MapOrder)
    (assessments : List DefenderAssessment) (metadatas : List AssessmentMetadata) :
    (createRecommendation ord1 assessments metadatas).Perm
      (createRecommendation ord2 assessments metadatas) ∧
    (createRecommendation ord1 assessments metadatas).Perm
      ((recommendationMap assessments metadatas).map Prod.snd) ∧
    (createRecommendation ord1 assessments metadatas).length =
      (createRecommendation ord2 assessments metadatas).length ∧
    (ord1.range (recommendationMap assessments metadatas) =
      ord2.range (recommendationMap assessments metadatas) →
      createRecommendation ord1 assessments metadatas =
        createRecommendation ord2 assessments metadatas) := by
  have hperm := createRecommendation_perm_of_map_eq ord1 ord2 assessments assessments
    metadatas metadatas rfl
  refine ⟨hperm, ?_, hperm.length_eq, ?_⟩
  · unfold createRecommendation
    exact (ord1.perm _).map Prod.snd
  · intro h
    unfold createRecommendation
    rw [h]

/-- Witness of the amended C11 on the sample inputs: insertion order and reverse order give
rearrangements of the same two records. -/
theorem createRecommendation_records_fixed_up_to_order_witness :
    (createRecommendation MapOrder.insertion sampleFindings sampleMetadata).Perm
      (createRecommendation MapOrder.reversed sampleFindings sampleMetadata) ∧
    (createRecommendation MapOrder.insertion sampleFindings sampleMetadata).length = 2 :=
  ⟨(createRecommendation_records_fixed_up_to_order MapOrder.insertion MapOrder.reversed
      sampleFindings sampleMetadata).1, by decide⟩

/-! ## The claim on the fan-out of `aiEnrich` -/

/-- C12: a task whose completion call succeeds with a response that carries the remediation
marker before the explanation marker sends nothing.  Whatever the recommendation, the parse
of line 310 panics before the send of line 315, so with one dispatched recommendation no
record reaches the channel; on a response with the markers in canonical order the same task
does send its record, with its NameID unchanged. -/
theorem aiEnrichAfterCall_panics_before_send (recommendation : Recommendation) :
    aiEnrichAfterCall recommendation
      "**Remediation Steps:** fix **Explanation of the Vulnerability:** why" = none ∧
    aiEnrichAfterCall recommendation
      "**Explanation of the Vulnerability:** why **Remediation Steps:** fix" =
      some { recommendation with
        Description := "why"
        Remediation := "fix"
        Context := "" } := by
  have hbad : parseAIResponse
      "**Remediation Steps:** fix **Explanation of the Vulnerability:** why" = none := by
    decide
  have hgood : parseAIResponse
      "**Explanation of the Vulnerability:** why **Remediation Steps:** fix" =
      some ("why", "fix", "") := by
    decide
  constructor
  · unfold aiEnrichAfterCall
    rw [hbad]
  · unfold aiEnrichAfterCall
    rw [hgood]

end AzureDefender
